import Mathlib
/-!
Shallow embedding of the pixchart core.

Source files:
* `src/unnamed/part_000` — the concatenation of `pixchart/index.js`
  (animation state machine, disposal) and `pixchart/lib/loadParticles.js`
  (particle layout engine with cooperative time-slicing).
* `src/src/scene.js` — the session layer (setters, query-string state).

The spec renames the source's `minFrameSpan` / `maxFrameSpan` /
`frameChangeRate` / `maxYValue` to `minJitter` / `maxJitter` / `frameRate` /
`maxStackHeight`; the definitions below keep the source names.  JS numbers
are modelled as exact rationals.
-/

/-- Animation phases: `ANIMATION_COLLAPSE = 1`, `ANIMATION_EXPAND = 2`
(part_000 lines 7-8). -/
inductive Phase where
  | collapse
  | expand
deriving DecidableEq

/-- Line 27 of part_000: `var initialState = ANIMATION_COLLAPSE;`.
It is a hardcoded constant; `options.collapsed` is never read by `pixChart`. -/
def initialState : Phase := Phase.collapse

/-- Animation cycle state: the `state` and `currentFrameNumber` variables of
`pixChart`. -/
structure SM where
  phase : Phase
  frame : ℚ
deriving DecidableEq

/-- Per-image animation configuration captured after a particle load
(part_000 lines 33 and 162-164): the jitter span bounds and `framesCount`. -/
structure SMConfig where
  minFrameSpan : ℚ
  maxFrameSpan : ℚ
  framesCount : ℕ
deriving DecidableEq

/-- Line 164: `frameChangeRate = (maxFrameSpan - minFrameSpan)/framesCount`. -/
def frameChangeRate (cfg : SMConfig) : ℚ :=
  (cfg.maxFrameSpan - cfg.minFrameSpan) / (cfg.framesCount : ℚ)

/-- Observable effects of one `scheduleNextFrame` tick: the successor state,
whether `options.cycleComplete()` was invoked, whether the 1-second pause
timeout was scheduled, and whether another animation frame was requested
immediately. -/
structure TickOut where
  st : SM
  cycleComplete : Bool
  pauseScheduled : Bool
  tickRequested : Bool
deriving DecidableEq

/-- Lines 245-247: `setInitialFrameNumber` sets
`currentFrameNumber = minFrameSpan`. -/
def setInitialFrameNumber (cfg : SMConfig) (s : SM) : SM :=
  { s with frame := cfg.minFrameSpan }

/-- Lines 249-263: `completeState`.  It runs after `scheduleNextFrame` has
already flipped `state`, so `s.phase` here is the *new* phase.  It resets the
frame number, then fires `options.cycleComplete()` when the new phase equals
`initialState`, and otherwise schedules the 1000 ms pause timeout that drives
the machine back to the original state. -/
def completeState (cfg : SMConfig) (s : SM) : TickOut :=
  let s' := setInitialFrameNumber cfg s
  if s.phase = initialState then
    { st := s', cycleComplete := true, pauseScheduled := false, tickRequested := false }
  else
    { st := s', cycleComplete := false, pauseScheduled := true, tickRequested := false }

/-- Lines 220-243: `scheduleNextFrame`.  In `Collapse` the frame advances by
`frameChangeRate` once per tick while below `maxFrameSpan`; in `Expand` it
advances once and then a second time only if still below `maxFrameSpan`.
Otherwise the phase flips and `completeState` runs. -/
def scheduleNextFrame (cfg : SMConfig) (s : SM) : TickOut :=
  match s.phase with
  | Phase.collapse =>
    if s.frame < cfg.maxFrameSpan then
      { st := { phase := Phase.collapse, frame := s.frame + frameChangeRate cfg },
        cycleComplete := false, pauseScheduled := false, tickRequested := true }
    else
      completeState cfg { phase := Phase.expand, frame := s.frame }
  | Phase.expand =>
    if s.frame < cfg.maxFrameSpan then
      let f1 := s.frame + frameChangeRate cfg
      let f2 := if f1 < cfg.maxFrameSpan then f1 + frameChangeRate cfg else f1
      { st := { phase := Phase.expand, frame := f2 },
        cycleComplete := false, pauseScheduled := false, tickRequested := true }
    else
      completeState cfg { phase := Phase.collapse, frame := s.frame }

/-- Successor state of one tick. -/
def smStep (cfg : SMConfig) (s : SM) : SM := (scheduleNextFrame cfg s).st

/-- Animation start state: phase `Collapse` with the frame number set to
`minFrameSpan` (lines 27-35; `initWebGLPrimitives` calls
`setInitialFrameNumber` at line 175 before the first cycle starts). -/
def smInit (cfg : SMConfig) : SM := { phase := Phase.collapse, frame := cfg.minFrameSpan }

/-- Iterated ticks from the start of the animation. -/
def smIter (cfg : SMConfig) : ℕ → SM
  | 0 => smInit cfg
  | n + 1 => smStep cfg (smIter cfg n)

/-- Reachability invariant of the tick loop: the frame number lies on the grid
`minFrameSpan + k * frameChangeRate` with `k ≤ framesCount`. -/
def onGrid (cfg : SMConfig) (s : SM) : Prop :=
  ∃ k : ℕ, k ≤ cfg.framesCount ∧ s.frame = cfg.minFrameSpan + (k : ℚ) * frameChangeRate cfg

/-- Which phase `scheduleNextFrame` writes into `state` when a phase
completes (lines 230 and 239 of part_000). -/
def phaseFlip : Phase → Phase
  | Phase.collapse => Phase.expand
  | Phase.expand => Phase.collapse

/-- Configuration surface passed by `createPixChart` in scene.js
(lines 316-324) to `pixChart(imageLink, options)`.  Fields irrelevant to the
claims (canvas, colorGroupBy, scaleImage, maxPixels) are omitted. -/
structure PixChartOptions where
  collapsed : Bool
  bucketCount : Option ℕ
  framesCount : Option ℕ
deriving DecidableEq

/-- Line 33 of part_000: `framesCount = options.framesCount || 120`
(`0` is falsy in JS, so it also yields the default). -/
def framesCountOf (opts : PixChartOptions) : ℕ :=
  match opts.framesCount with
  | none => 120
  | some k => if k = 0 then 120 else k

/-- Lines 37-41 of part_000: the settings object `pixChart` hands to
`loadParticles`.  Only `isCancelled`, `framesCount` and `onProgress` are
forwarded; `options.bucketCount` and `options.collapsed` are not. -/
structure ParticleLoaderSettings where
  isCancelled : Bool
  framesCount : ℕ
deriving DecidableEq

/-- Lines 37-41 of part_000: `particleLoaderSettings` at construction time. -/
def particleLoaderSettingsOf (opts : PixChartOptions) : ParticleLoaderSettings :=
  { isCancelled := false, framesCount := framesCountOf opts }

/-- Line 332 of part_000 (`loadParticles`):
`var bucketsCount = n; // TODO: Customize?` — the histogram bucket count used
by the layout engine is always the pixel count `width * height`; the settings
object (which anyway carries no bucket count, see
`particleLoaderSettingsOf`) is not consulted. -/
def bucketsCountUsed (width height : ℕ) (settings : ParticleLoaderSettings) : ℕ :=
  width * height

/-- Line 27 of part_000: `initialState` is the constant `ANIMATION_COLLAPSE`;
the options object (in particular `options.collapsed`) is never consulted. -/
def pixChartInitialState (opts : PixChartOptions) : Phase := Phase.collapse

/-- One RGBA pixel's colour channels, as read from the canvas
`ImageData` (8-bit samples; the alpha channel is not used by the engine). -/
structure PixelRGB where
  r : ℕ
  g : ℕ
  b : ℕ
deriving DecidableEq

/-- Modelled from the spec: `getValue` (part_000 lines 356-359) calls
`rgbToHsl(r, g, b)[2]` from `lib/colors`, which is not under `src/`.  Per the
spec, `value` is "the lightness channel of the HSL transform of its RGB",
range-normalized to `[0,1]`: channels are scaled to `[0,1]` and the lightness
is the mean of the largest and smallest channel. -/
def getValue (r g b : ℕ) : ℚ :=
  ((max r (max g b) : ℚ) / 255 + (min r (min g b) : ℚ) / 255) / 2

/-- Lines 382-387 of part_000: `bucketNumber = Math.round(v * bucketsCount)`,
then `if (bucketNumber === bucketsCount) bucketNumber -= 1` to prevent
overflow at the top edge.  `Math.round` rounds half toward positive infinity,
as does Mathlib's `round` on `ℚ`. -/
def bucketNumberZ (v : ℚ) (bucketsCount : ℕ) : ℤ :=
  let bn := round (v * (bucketsCount : ℚ))
  if bn = (bucketsCount : ℤ) then bn - 1 else bn

/-- One particle record: the four floats written to `particleAttributes`
for one pixel (part_000 lines 395-398): the colour value, the 0-based stack
height inside its bucket, the gaussian jitter sample (`frameSpan`), and
`invIndex/4`, the particle's forward pixel index. -/
structure Particle where
  value : ℚ
  stackHeight : ℕ
  jitter : ℚ
  sourceIndex : ℕ
deriving DecidableEq

/-- Accumulated state of the `processPixels` loop: the `bucketColors`
occupancy array, the particle records produced so far, `maxYValue`, and the
running jitter bounds (`minFrameSpan` starts at positive infinity and
`maxFrameSpan` at negative infinity, line 341; `none` models "not yet
attained"). -/
structure EngineState where
  buckets : List ℕ
  particles : List Particle
  maxYValue : ℕ
  minFrameSpan : Option ℚ
  maxFrameSpan : Option ℚ
deriving DecidableEq

/-- Initial engine state (part_000 lines 334, 341, 344, 347):
`bucketColors = new Uint32Array(bucketsCount)` is all zeros, no particle has
been written, `maxYValue = 0`, and the jitter bounds are untouched. -/
def engineInit (bucketsCount : ℕ) : EngineState :=
  { buckets := List.replicate bucketsCount 0
    particles := []
    maxYValue := 0
    minFrameSpan := none
    maxFrameSpan := none }

/-- One iteration of the `while` loop of `processPixels`
(part_000 lines 376-409), for one pixel: its channels `input.1`, its gaussian
sample `input.2.1` (`random.gaussian()`), and its forward pixel index
`input.2.2` (`invIndex/4`).  Mirrors the source: quantize the value, bump the
bucket (`currentYValue = bucketColors[bucketNumber] += 1`), record the
particle with `stackHeight = currentYValue - 1`, track the running jitter
bounds and `maxYValue`. -/
def processOne (bucketsCount : ℕ) (st : EngineState) (input : PixelRGB × ℚ × ℕ) :
    EngineState :=
  let v := getValue input.1.r input.1.g input.1.b
  let bucketNumber := (bucketNumberZ v bucketsCount).toNat
  let currentYValue := st.buckets.getD bucketNumber 0 + 1
  { buckets := st.buckets.set bucketNumber currentYValue
    particles := st.particles ++
      [{ value := v, stackHeight := currentYValue - 1,
         jitter := input.2.1, sourceIndex := input.2.2 }]
    maxYValue := if currentYValue > st.maxYValue then currentYValue else st.maxYValue
    minFrameSpan := some (match st.minFrameSpan with
      | none => input.2.1
      | some m => if input.2.1 < m then input.2.1 else m)
    maxFrameSpan := some (match st.maxFrameSpan with
      | none => input.2.1
      | some m => if input.2.1 > m then input.2.1 else m) }

/-- The full data pass of `loadParticles`: fold the per-pixel body over the
processing sequence, starting from the freshly initialized state. -/
def runEngine (bucketsCount : ℕ) (input : List (PixelRGB × ℚ × ℕ)) : EngineState :=
  input.foldl (processOne bucketsCount) (engineInit bucketsCount)

/-- The loop iterates `idx = 0, 4, 8, ...` over `invIndex = pixelsCount - idx - 4`
(lines 376-377), that is, pixels are processed in reverse scan order: the k-th
processed pixel carries the k-th gaussian sample and
`sourceIndex = invIndex/4 = n - 1 - k`. -/
def attachMeta (jit : ℕ → ℚ) (n : ℕ) : ℕ → List PixelRGB → List (PixelRGB × ℚ × ℕ)
  | _, [] => []
  | k, px :: rest => (px, jit k, n - 1 - k) :: attachMeta jit n (k + 1) rest

/-- The processing sequence of `loadParticles` on an image given as its pixel
list in forward scan order, with `jit` the seeded gaussian stream. -/
def loadParticlesInput (pixels : List PixelRGB) (jit : ℕ → ℚ) :
    List (PixelRGB × ℚ × ℕ) :=
  attachMeta jit pixels.length 0 pixels.reverse

/-- The state `loadParticles` resolves with: `bucketsCount = n` (line 332) and
the whole (reversed) pixel list processed. -/
def loadParticlesModel (pixels : List PixelRGB) (jit : ℕ → ℚ) : EngineState :=
  runEngine pixels.length (loadParticlesInput pixels jit)

/-- Running maximum of a list of naturals, with 0 for the empty list. -/
def listMax (l : List ℕ) : ℕ := l.foldr max 0

/-- Invariant of the pixel loop, tying the occupancy array, the produced
particles, `maxYValue` and the jitter bounds together. -/
structure EngineInv (bucketsCount : ℕ) (st : EngineState) : Prop where
  blen : st.buckets.length = bucketsCount
  bsum : st.buckets.sum = st.particles.length
  stack : ∀ p ∈ st.particles,
    p.stackHeight < st.buckets.getD (bucketNumberZ p.value bucketsCount).toNat 0
  maxy : st.maxYValue = listMax st.buckets
  jlo : ∀ p ∈ st.particles, ∃ m, st.minFrameSpan = some m ∧ m ≤ p.jitter
  jhi : ∀ p ∈ st.particles, ∃ m, st.maxFrameSpan = some m ∧ p.jitter ≤ m

/-- Scheduler-level state of one `loadParticles` call: `idx` counts pixels
already consumed by the loop (the source's `idx/4`), `queued` records whether
a `setTimeout(processPixels, 0)` is pending, `cancelled` is
`options.isCancelled`, and `resolved` whether `actualResolve` has been
called. -/
structure LoaderState where
  idx : ℕ
  queued : Bool
  cancelled : Bool
  resolved : Bool
deriving DecidableEq

/-- Events on the single cooperative timeline: the caller sets the
cancellation flag (`dispose()` does `particleLoaderSettings.isCancelled =
true`, part_000 line 274), or the pending timeout fires and `processPixels`
runs one batch whose wall-clock budget admits `k + 1` pixels. -/
inductive LoaderEv where
  | cancel
  | fire (k : ℕ)
deriving DecidableEq

/-- One scheduler step, from part_000 lines 361-426.  A fired batch
(`processPixels`) consumes up to `k + 1` of the `total - idx` remaining pixels
(the 12 ms budget is checked after each pixel, so at least one pixel is
processed when any remain).  If the loop exhausts the pixels with budget to
spare it resolves the promise (`actualResolve`, line 419; if the budget runs
out exactly at the last pixel, one further empty batch is scheduled and
resolves).  Otherwise `scheduleWork` (lines 361-370) runs: it returns without
scheduling anything when `isCancelled` is set, else it queues the next batch.
The flag is checked only in `scheduleWork`, never at the start of
`processPixels`, and `dispose` does not clear the loader's anonymous timeout —
so a batch already queued when the flag is set still runs. -/
def loaderStep (total : ℕ) (s : LoaderState) : LoaderEv → LoaderState
  | LoaderEv.cancel => { s with cancelled := true }
  | LoaderEv.fire k =>
    if s.queued then
      let m := min (k + 1) (total - s.idx)
      let idx' := s.idx + m
      if idx' = total ∧ total - s.idx ≤ k then
        { idx := idx', queued := false, cancelled := s.cancelled, resolved := true }
      else
        { idx := idx', queued := !s.cancelled, cancelled := s.cancelled,
          resolved := s.resolved }
    else s

/-- State at the moment `loadParticles` returns its promise: `scheduleWork()`
has run once synchronously (line 352) with `isCancelled` still false
(part_000 line 38), so one batch is queued and nothing is processed or
resolved. -/
def loaderInit : LoaderState :=
  { idx := 0, queued := true, cancelled := false, resolved := false }

/-- Loader state after a sequence of scheduler events. -/
def loaderRun (total : ℕ) (evs : List LoaderEv) : LoaderState :=
  evs.foldl (loaderStep total) loaderInit

/-- Safety invariant: resolution only happens with every pixel consumed, a
resolved loader has no batch queued, and `idx` never exceeds `total`. -/
def LoaderInv (total : ℕ) (s : LoaderState) : Prop :=
  (s.resolved = true → s.idx = total) ∧
  (s.resolved = true → s.queued = false) ∧
  s.idx ≤ total

/-- Session state of scene.js (lines 43-101) restricted to what the setters
touch: the `state` fields, the persisted query-string entries (`qs.set`), a
flag for whether a pix chart is live, and counters for the side effects a
valid input triggers (`currentPixChart.setFramesCount`,
`restartCurrentAnimation`, `currentPixChart.setMaxPixels`). -/
structure SceneState where
  duration : ℚ
  bucketCount : ℤ
  maxPixels : ℤ
  qsD : Option ℚ
  qsBc : Option ℤ
  hasChart : Bool
  framesCountSets : ℕ
  restarts : ℕ
  relayouts : ℕ
deriving DecidableEq

/-- scene.js lines 348-357: `setAnimationDuration`.  `Number.parseFloat` of a
non-numeric input yields `NaN` (modelled as `none`) and the function returns
before touching anything; otherwise it persists `d`, updates
`state.duration`, and (if a chart is live) pushes the new frames count into
it. -/
def setAnimationDuration (s : SceneState) (input : Option ℚ) : SceneState :=
  match input with
  | none => s
  | some seconds =>
    { s with qsD := some seconds, duration := seconds,
             framesCountSets :=
               if s.hasChart then s.framesCountSets + 1 else s.framesCountSets }

/-- scene.js lines 359-368: `setBucketCount`.  `Number.parseInt` yielding
`NaN` (`none`) or a value below 1 returns without touching anything;
otherwise it persists `bc`, updates `state.bucketCount`, and restarts the
current animation if one is live. -/
def setBucketCount (s : SceneState) (input : Option ℤ) : SceneState :=
  match input with
  | none => s
  | some bucketCount =>
    if bucketCount < 1 then s
    else
      { s with qsBc := some bucketCount, bucketCount := bucketCount,
               restarts := if s.hasChart then s.restarts + 1 else s.restarts }

/-- scene.js lines 370-381: `setMaxPixels`.  `Number.parseInt` yielding `NaN`
(`none`) returns without touching anything; otherwise it updates
`state.maxPixels` (no query-string entry exists for it) and, if a chart is
live, triggers the particle re-layout via `currentPixChart.setMaxPixels`. -/
def setMaxPixels (s : SceneState) (input : Option ℤ) : SceneState :=
  match input with
  | none => s
  | some maxPixels =>
    { s with maxPixels := maxPixels,
             relayouts := if s.hasChart then s.relayouts + 1 else s.relayouts }

/-- scene.js lines 140-145: `getSafeBucketCount` — parse failures and values
below 1 fall back to `DEFAULT_BUCKET_COUNT = 510` (line 14). -/
def getSafeBucketCount (plainInput : Option ℤ) : ℤ :=
  match plainInput with
  | none => 510
  | some parsedValue => if parsedValue < 1 then 510 else parsedValue

lemma framesCount_cast_pos (cfg : SMConfig) (h2 : 1 ≤ cfg.framesCount) :
    (0 : ℚ) < (cfg.framesCount : ℚ) := by
  have h : 0 < cfg.framesCount := by omega
  exact_mod_cast h

lemma rate_nonneg (cfg : SMConfig) (h1 : cfg.minFrameSpan ≤ cfg.maxFrameSpan)
    (h2 : 1 ≤ cfg.framesCount) : 0 ≤ frameChangeRate cfg :=
  div_nonneg (by linarith) (le_of_lt (framesCount_cast_pos cfg h2))

lemma span_eq (cfg : SMConfig) (h2 : 1 ≤ cfg.framesCount) :
    cfg.minFrameSpan + (cfg.framesCount : ℚ) * frameChangeRate cfg = cfg.maxFrameSpan := by
  have h := framesCount_cast_pos cfg h2
  rw [frameChangeRate]
  field_simp

lemma lt_framesCount_of_frame_lt (cfg : SMConfig)
    (h1 : cfg.minFrameSpan ≤ cfg.maxFrameSpan) (h2 : 1 ≤ cfg.framesCount) (k : ℕ)
    (hf : cfg.minFrameSpan + (k : ℚ) * frameChangeRate cfg < cfg.maxFrameSpan) :
    k < cfg.framesCount := by
  have hs := span_eq cfg h2
  have hr := rate_nonneg cfg h1 h2
  by_contra hk
  push_neg at hk
  have hkq : (cfg.framesCount : ℚ) ≤ (k : ℚ) := by exact_mod_cast hk
  have hmul : (cfg.framesCount : ℚ) * frameChangeRate cfg ≤ (k : ℚ) * frameChangeRate cfg :=
    mul_le_mul_of_nonneg_right hkq hr
  linarith

lemma onGrid_step (cfg : SMConfig) (h1 : cfg.minFrameSpan ≤ cfg.maxFrameSpan)
    (h2 : 1 ≤ cfg.framesCount) (s : SM) (hs : onGrid cfg s) :
    onGrid cfg (smStep cfg s) := by
  obtain ⟨k, hk, hf⟩ := hs
  obtain ⟨ph, fr⟩ := s
  simp only at hf
  cases ph
  case collapse =>
    by_cases hlt : fr < cfg.maxFrameSpan
    · have hkfc : k < cfg.framesCount := by
        apply lt_framesCount_of_frame_lt cfg h1 h2 k
        rw [← hf]; exact hlt
      refine ⟨k + 1, by omega, ?_⟩
      simp only [smStep, scheduleNextFrame, hlt, if_pos]
      rw [hf]; push_cast; ring
    · refine ⟨0, by omega, ?_⟩
      simp [smStep, scheduleNextFrame, hlt, completeState, setInitialFrameNumber, initialState]
  case expand =>
    by_cases hlt : fr < cfg.maxFrameSpan
    · have hkfc : k < cfg.framesCount := by
        apply lt_framesCount_of_frame_lt cfg h1 h2 k
        rw [← hf]; exact hlt
      by_cases hlt2 : fr + frameChangeRate cfg < cfg.maxFrameSpan
      · have hk2 : k + 1 < cfg.framesCount := by
          apply lt_framesCount_of_frame_lt cfg h1 h2 (k + 1)
          have he : cfg.minFrameSpan + ((k + 1 : ℕ) : ℚ) * frameChangeRate cfg
              = fr + frameChangeRate cfg := by
            rw [hf]; push_cast; ring
          rw [he]; exact hlt2
        refine ⟨k + 2, by omega, ?_⟩
        simp only [smStep, scheduleNextFrame, hlt, hlt2, if_pos]
        rw [hf]; push_cast; ring
      · refine ⟨k + 1, by omega, ?_⟩
        simp only [smStep, scheduleNextFrame, hlt, hlt2, if_pos, if_neg]
        rw [hf]; push_cast; ring
    · refine ⟨0, by omega, ?_⟩
      simp [smStep, scheduleNextFrame, hlt, completeState, setInitialFrameNumber, initialState]

lemma onGrid_le (cfg : SMConfig) (h1 : cfg.minFrameSpan ≤ cfg.maxFrameSpan)
    (h2 : 1 ≤ cfg.framesCount) (s : SM) (hs : onGrid cfg s) :
    cfg.minFrameSpan ≤ s.frame ∧ s.frame ≤ cfg.maxFrameSpan := by
  obtain ⟨k, hk, hf⟩ := hs
  have hr := rate_nonneg cfg h1 h2
  have hspan := span_eq cfg h2
  have hkc : (k : ℚ) ≤ (cfg.framesCount : ℚ) := by exact_mod_cast hk
  have h0 : (0 : ℚ) ≤ (k : ℚ) * frameChangeRate cfg :=
    mul_nonneg (by positivity) hr
  have hmul : (k : ℚ) * frameChangeRate cfg ≤ (cfg.framesCount : ℚ) * frameChangeRate cfg :=
    mul_le_mul_of_nonneg_right hkc hr
  constructor
  · rw [hf]; linarith
  · rw [hf]; linarith

lemma onGrid_iter (cfg : SMConfig) (h1 : cfg.minFrameSpan ≤ cfg.maxFrameSpan)
    (h2 : 1 ≤ cfg.framesCount) : ∀ n : ℕ, onGrid cfg (smIter cfg n) := by
  intro n
  induction n with
  | zero => exact ⟨0, by omega, by simp [smIter, smInit]⟩
  | succ m ih => exact onGrid_step cfg h1 h2 _ ih

/-- C3: while a phase is active, `frameNumber` stays within the closed
interval `[minJitter, maxJitter]` after every tick, and `frameNumber` is reset
to `minJitter` at the start of every phase (every tick that changes the phase
leaves the frame number at `minFrameSpan`). -/
theorem C3_frameNumber_within_span (cfg : SMConfig)
    (h1 : cfg.minFrameSpan ≤ cfg.maxFrameSpan) (h2 : 1 ≤ cfg.framesCount) :
    (∀ n : ℕ, cfg.minFrameSpan ≤ (smIter cfg n).frame ∧
      (smIter cfg n).frame ≤ cfg.maxFrameSpan) ∧
    (∀ s : SM, (smStep cfg s).phase ≠ s.phase →
      (smStep cfg s).frame = cfg.minFrameSpan) := by
  constructor
  · intro n
    exact onGrid_le cfg h1 h2 _ (onGrid_iter cfg h1 h2 n)
  · intro s h
    obtain ⟨ph, fr⟩ := s
    cases ph
    case collapse =>
      by_cases hlt : fr < cfg.maxFrameSpan
      · exact absurd (by simp [smStep, scheduleNextFrame, hlt]) h
      · simp [smStep, scheduleNextFrame, hlt, completeState, setInitialFrameNumber, initialState]
    case expand =>
      by_cases hlt : fr < cfg.maxFrameSpan
      · exact absurd (by simp [smStep, scheduleNextFrame, hlt]) h
      · simp [smStep, scheduleNextFrame, hlt, completeState, setInitialFrameNumber, initialState]

/-- C3 witness: a concrete run with `minFrameSpan = 0`, `maxFrameSpan = 1`,
`framesCount = 2`. -/
theorem C3_frameNumber_within_span_witness :
    ((0 : ℚ) ≤ (smIter ⟨0, 1, 2⟩ 3).frame ∧ (smIter ⟨0, 1, 2⟩ 3).frame ≤ 1) ∧
    (smStep ⟨0, 1, 2⟩ ⟨Phase.collapse, 1⟩).frame = 0 :=
  ⟨(C3_frameNumber_within_span ⟨0, 1, 2⟩ (by norm_num) (by norm_num)).1 3,
   (C3_frameNumber_within_span ⟨0, 1, 2⟩ (by norm_num) (by norm_num)).2
     ⟨Phase.collapse, 1⟩ (by decide)⟩

/-- C1 counterexample: with `minFrameSpan = 0`, `maxFrameSpan = 1`,
`framesCount = 1`, the tick that completes the Collapse phase (reached after
one tick from the start) fires no `cycle-complete` and schedules the pause,
while the tick that completes the Expand phase (reached after three ticks)
fires `cycle-complete` and schedules no pause — the opposite of the claim,
which attaches the `cycle-complete` signal to the completion of Collapse and
denies it at the Expand-to-Collapse transition. -/
theorem C1_counterexample :
    smIter ⟨0, 1, 1⟩ 1 = ⟨Phase.collapse, 1⟩ ∧
    (scheduleNextFrame ⟨0, 1, 1⟩ (smIter ⟨0, 1, 1⟩ 1)).cycleComplete = false ∧
    (scheduleNextFrame ⟨0, 1, 1⟩ (smIter ⟨0, 1, 1⟩ 1)).pauseScheduled = true ∧
    smIter ⟨0, 1, 1⟩ 3 = ⟨Phase.expand, 1⟩ ∧
    (scheduleNextFrame ⟨0, 1, 1⟩ (smIter ⟨0, 1, 1⟩ 3)).cycleComplete = true ∧
    (scheduleNextFrame ⟨0, 1, 1⟩ (smIter ⟨0, 1, 1⟩ 3)).pauseScheduled = false := by
  have hrate : frameChangeRate ⟨0, 1, 1⟩ = 1 := by norm_num [frameChangeRate]
  have h0 : smIter ⟨0, 1, 1⟩ 0 = ⟨Phase.collapse, 0⟩ := rfl
  have e1 : smIter ⟨0, 1, 1⟩ 1 = smStep ⟨0, 1, 1⟩ (smIter ⟨0, 1, 1⟩ 0) := rfl
  have h1 : smIter ⟨0, 1, 1⟩ 1 = ⟨Phase.collapse, 1⟩ := by
    rw [e1, h0]
    norm_num [smStep, scheduleNextFrame, hrate]
  have hc1 : scheduleNextFrame ⟨0, 1, 1⟩ ⟨Phase.collapse, 1⟩
      = { st := ⟨Phase.expand, 0⟩, cycleComplete := false, pauseScheduled := true,
          tickRequested := false } := by
    norm_num [scheduleNextFrame, completeState, setInitialFrameNumber, initialState]
    decide
  have e2 : smIter ⟨0, 1, 1⟩ 2 = smStep ⟨0, 1, 1⟩ (smIter ⟨0, 1, 1⟩ 1) := rfl
  have h2 : smIter ⟨0, 1, 1⟩ 2 = ⟨Phase.expand, 0⟩ := by
    rw [e2, h1, smStep, hc1]
  have e3 : smIter ⟨0, 1, 1⟩ 3 = smStep ⟨0, 1, 1⟩ (smIter ⟨0, 1, 1⟩ 2) := rfl
  have h3 : smIter ⟨0, 1, 1⟩ 3 = ⟨Phase.expand, 1⟩ := by
    rw [e3, h2]
    norm_num [smStep, scheduleNextFrame, hrate]
  have hc3 : scheduleNextFrame ⟨0, 1, 1⟩ ⟨Phase.expand, 1⟩
      = { st := ⟨Phase.collapse, 0⟩, cycleComplete := true, pauseScheduled := false,
          tickRequested := false } := by
    norm_num [scheduleNextFrame, completeState, setInitialFrameNumber, initialState]
  refine ⟨h1, ?_, ?_, h3, ?_, ?_⟩
  · rw [h1, hc1]
  · rw [h1, hc1]
  · rw [h3, hc3]
  · rw [h3, hc3]

/-- C1 (amended): on phase completion the frame number resets to
`minFrameSpan`; `cycle-complete` is signalled exactly when the phase just
completed is Expand (equivalently, when the *new* phase equals
`initialState = Collapse`), and the machine schedules no pause in that branch;
completing Collapse schedules the ~1 s pause before the next tick and does not
signal.  So `cycle-complete` fires at the Expand-to-Collapse transition, which
ends the cycle, and never at the intra-cycle Collapse-to-Expand transition. -/
theorem C1_completion_signals (cfg : SMConfig) (s : SM)
    (h : ¬ s.frame < cfg.maxFrameSpan) :
    (scheduleNextFrame cfg s).st.frame = cfg.minFrameSpan ∧
    ((scheduleNextFrame cfg s).cycleComplete = true ↔ s.phase = Phase.expand) ∧
    ((scheduleNextFrame cfg s).pauseScheduled = true ↔ s.phase = Phase.collapse) := by
  obtain ⟨ph, fr⟩ := s
  simp only at h
  cases ph <;>
    simp [scheduleNextFrame, h, completeState, setInitialFrameNumber, initialState]

/-- C1 witness: the amended theorem applied at the two concrete completion
states of the counterexample run. -/
theorem C1_completion_signals_witness :
    ((scheduleNextFrame ⟨0, 1, 1⟩ ⟨Phase.collapse, 1⟩).st.frame = 0 ∧
      ((scheduleNextFrame ⟨0, 1, 1⟩ ⟨Phase.collapse, 1⟩).cycleComplete = true ↔
        Phase.collapse = Phase.expand) ∧
      ((scheduleNextFrame ⟨0, 1, 1⟩ ⟨Phase.collapse, 1⟩).pauseScheduled = true ↔
        Phase.collapse = Phase.collapse)) ∧
    ((scheduleNextFrame ⟨0, 1, 1⟩ ⟨Phase.expand, 1⟩).st.frame = 0 ∧
      ((scheduleNextFrame ⟨0, 1, 1⟩ ⟨Phase.expand, 1⟩).cycleComplete = true ↔
        Phase.expand = Phase.expand) ∧
      ((scheduleNextFrame ⟨0, 1, 1⟩ ⟨Phase.expand, 1⟩).pauseScheduled = true ↔
        Phase.expand = Phase.collapse)) :=
  ⟨C1_completion_signals ⟨0, 1, 1⟩ ⟨Phase.collapse, 1⟩ (by norm_num),
   C1_completion_signals ⟨0, 1, 1⟩ ⟨Phase.expand, 1⟩ (by norm_num)⟩

/-- C7 counterexample: with `minFrameSpan = 0`, `maxFrameSpan = 1`,
`framesCount = 1` (so `frameChangeRate = 1`), the machine is in Expand at
frame `0 < maxFrameSpan` after two ticks, yet the next tick advances the
frame only once (to `0 + frameChangeRate = 1`), not twice
(`0 + 2 * frameChangeRate = 2`) — refuting "advances frameNumber by frameRate
twice per tick" for every in-phase Expand tick below `maxJitter`. -/
theorem C7_counterexample :
    smIter ⟨0, 1, 1⟩ 2 = ⟨Phase.expand, 0⟩ ∧
    (0 : ℚ) < (1 : ℚ) ∧
    (scheduleNextFrame ⟨0, 1, 1⟩ ⟨Phase.expand, 0⟩).st.frame
      = 0 + frameChangeRate ⟨0, 1, 1⟩ ∧
    (0 : ℚ) + frameChangeRate ⟨0, 1, 1⟩
      ≠ 0 + frameChangeRate ⟨0, 1, 1⟩ + frameChangeRate ⟨0, 1, 1⟩ := by
  have hrate : frameChangeRate ⟨0, 1, 1⟩ = 1 := by norm_num [frameChangeRate]
  have h0 : smIter ⟨0, 1, 1⟩ 0 = ⟨Phase.collapse, 0⟩ := rfl
  have e1 : smIter ⟨0, 1, 1⟩ 1 = smStep ⟨0, 1, 1⟩ (smIter ⟨0, 1, 1⟩ 0) := rfl
  have h1 : smIter ⟨0, 1, 1⟩ 1 = ⟨Phase.collapse, 1⟩ := by
    rw [e1, h0]
    norm_num [smStep, scheduleNextFrame, hrate]
  have e2 : smIter ⟨0, 1, 1⟩ 2 = smStep ⟨0, 1, 1⟩ (smIter ⟨0, 1, 1⟩ 1) := rfl
  have h2 : smIter ⟨0, 1, 1⟩ 2 = ⟨Phase.expand, 0⟩ := by
    rw [e2, h1]
    norm_num [smStep, scheduleNextFrame, completeState, setInitialFrameNumber,
      initialState]
    rw [if_neg (by decide)]
  refine ⟨h2, by norm_num, ?_, by rw [hrate]; norm_num⟩
  norm_num [scheduleNextFrame, hrate]

/-- C7 (amended): per tick in the Expand phase with
`frameNumber < maxJitter`, the machine advances `frameNumber` by `frameRate`
once, advances it a second time only if the result is still below `maxJitter`,
and requests another tick; in the Collapse phase it advances once per tick;
when `frameNumber` is no longer below `maxJitter` the phase flips, the frame
resets, and no tick is requested (phase-completion handling runs). -/
theorem C7_tick_rates (cfg : SMConfig) (s : SM) :
    (s.phase = Phase.collapse → s.frame < cfg.maxFrameSpan →
      (scheduleNextFrame cfg s).st
          = ⟨Phase.collapse, s.frame + frameChangeRate cfg⟩ ∧
        (scheduleNextFrame cfg s).tickRequested = true) ∧
    (s.phase = Phase.expand → s.frame < cfg.maxFrameSpan →
      (s.frame + frameChangeRate cfg < cfg.maxFrameSpan →
        (scheduleNextFrame cfg s).st
          = ⟨Phase.expand, s.frame + frameChangeRate cfg + frameChangeRate cfg⟩) ∧
      (¬ s.frame + frameChangeRate cfg < cfg.maxFrameSpan →
        (scheduleNextFrame cfg s).st
          = ⟨Phase.expand, s.frame + frameChangeRate cfg⟩) ∧
      (scheduleNextFrame cfg s).tickRequested = true) ∧
    (¬ s.frame < cfg.maxFrameSpan →
      (scheduleNextFrame cfg s).st.phase = phaseFlip s.phase ∧
      (scheduleNextFrame cfg s).st.frame = cfg.minFrameSpan ∧
      (scheduleNextFrame cfg s).tickRequested = false) := by
  obtain ⟨ph, fr⟩ := s
  refine ⟨?_, ?_, ?_⟩
  · intro hph hlt
    cases ph
    · simp only at hlt
      simp [scheduleNextFrame, hlt]
    · exact absurd hph (by simp)
  · intro hph hlt
    cases ph
    · exact absurd hph (by simp)
    · simp only at hlt
      refine ⟨?_, ?_, ?_⟩
      · intro hlt2
        simp [scheduleNextFrame, hlt, hlt2]
      · intro hlt2
        simp [scheduleNextFrame, hlt, hlt2]
      · simp [scheduleNextFrame, hlt]
  · intro hlt
    cases ph <;>
      simp [scheduleNextFrame, hlt, completeState, setInitialFrameNumber,
        initialState, phaseFlip]

/-- C7 witness: the amended theorem applied at concrete states: a Collapse
tick at frame 0, an Expand tick at frame 0 with a binding guard on the second
advance, and a completing Expand tick at frame 1. -/
theorem C7_tick_rates_witness :
    ((scheduleNextFrame ⟨0, 1, 1⟩ ⟨Phase.collapse, 0⟩).st
        = ⟨Phase.collapse, 0 + frameChangeRate ⟨0, 1, 1⟩⟩ ∧
      (scheduleNextFrame ⟨0, 1, 1⟩ ⟨Phase.collapse, 0⟩).tickRequested = true) ∧
    ((scheduleNextFrame ⟨0, 1, 1⟩ ⟨Phase.expand, 0⟩).st
        = ⟨Phase.expand, 0 + frameChangeRate ⟨0, 1, 1⟩⟩) ∧
    ((scheduleNextFrame ⟨0, 1, 1⟩ ⟨Phase.expand, 1⟩).st.phase
        = phaseFlip Phase.expand) :=
  ⟨(C7_tick_rates ⟨0, 1, 1⟩ ⟨Phase.collapse, 0⟩).1 rfl (by norm_num),
   ((C7_tick_rates ⟨0, 1, 1⟩ ⟨Phase.expand, 0⟩).2.1 rfl (by norm_num)).2.1
     (by norm_num [frameChangeRate]),
   ((C7_tick_rates ⟨0, 1, 1⟩ ⟨Phase.expand, 1⟩).2.2 (by norm_num)).1⟩

/-- C2 counterexample: configuring `bucketCount := 5` on a 2-by-1 image leaves
the engine using `2 * 1 = 2` buckets, not `5` — the `bucketCount`
configuration option does not set the histogram resolution. -/
theorem C2_counterexample :
    bucketsCountUsed 2 1 (particleLoaderSettingsOf
      { collapsed := true, bucketCount := some 5, framesCount := none }) = 2 ∧
    (2 : ℕ) ≠ 5 := by
  decide

/-- C2 (amended): the layout engine's histogram bucket count is not
configurable: it always equals the total particle count `width * height`,
whatever options the caller passed (`pixChart` does not forward
`options.bucketCount` to the loader, and `loadParticles` hardcodes
`bucketsCount = n`). -/
theorem C2_bucketsCount_not_configurable (width height : ℕ)
    (opts : PixChartOptions) :
    bucketsCountUsed width height (particleLoaderSettingsOf opts)
      = width * height := rfl

/-- C5 counterexample: with `collapsed := false` (the caller's request for an
initially expanded scene, as scene.js passes
`collapsed: state.initialImageState === 'collapsed'`) the machine still starts
in Collapse, not Expand, and the two values of `collapsed` give the same
initial phase — so the `collapsed` option does not determine the initial
phase. -/
theorem C5_counterexample :
    pixChartInitialState
        { collapsed := false, bucketCount := none, framesCount := none }
      ≠ Phase.expand ∧
    pixChartInitialState
        { collapsed := false, bucketCount := none, framesCount := none }
      = pixChartInitialState
        { collapsed := true, bucketCount := none, framesCount := none } := by
  decide

/-- C5 (amended): the `collapsed` configuration option is accepted but
ignored; the animation state machine's initial phase is always Collapse,
whatever `collapsed` is, and the frame number is set to `minFrameSpan` when
the scene initializes (`setInitialFrameNumber` before the first cycle). -/
theorem C5_initial_phase_constant (opts : PixChartOptions) (cfg : SMConfig)
    (s : SM) :
    pixChartInitialState opts = Phase.collapse ∧
    pixChartInitialState opts = pixChartInitialState
      { opts with collapsed := ¬ opts.collapsed } ∧
    (setInitialFrameNumber cfg s).frame = cfg.minFrameSpan ∧
    (smIter cfg 0).phase = Phase.collapse ∧
    (smIter cfg 0).frame = cfg.minFrameSpan := by
  exact ⟨rfl, rfl, rfl, rfl, rfl⟩

lemma getValue_nonneg (r g b : ℕ) : 0 ≤ getValue r g b := by
  have h1 : (0 : ℚ) ≤ (max r (max g b) : ℚ) := by positivity
  have h2 : (0 : ℚ) ≤ (min r (min g b) : ℚ) := by positivity
  rw [getValue]
  positivity

lemma getValue_le_one (r g b : ℕ) (hr : r ≤ 255) (hg : g ≤ 255) (hb : b ≤ 255) :
    getValue r g b ≤ 1 := by
  have hM : max r (max g b) ≤ 255 := by omega
  have hm : min r (min g b) ≤ 255 := by omega
  have hMq : (max r (max g b) : ℚ) ≤ 255 := by exact_mod_cast hM
  have hmq : (min r (min g b) : ℚ) ≤ 255 := by exact_mod_cast hm
  rw [getValue]
  rw [div_le_one (by norm_num)]
  rw [div_add_div_same, div_le_iff₀ (by norm_num : (0:ℚ) < 255)]
  linarith

/-- Range of the quantizer, shared by the array-bounds claim and the engine
invariants. -/
lemma bucketNumberZ_range (v : ℚ) (bucketsCount : ℕ) (h0 : 0 ≤ v) (h1 : v ≤ 1)
    (hbc : 1 ≤ bucketsCount) :
    0 ≤ bucketNumberZ v bucketsCount ∧
      bucketNumberZ v bucketsCount < (bucketsCount : ℤ) := by
  have hprod0 : (0 : ℚ) ≤ v * (bucketsCount : ℚ) := by positivity
  have hprod1 : v * (bucketsCount : ℚ) ≤ (bucketsCount : ℚ) := by
    calc v * (bucketsCount : ℚ) ≤ 1 * (bucketsCount : ℚ) :=
          mul_le_mul_of_nonneg_right h1 (by positivity)
      _ = (bucketsCount : ℚ) := one_mul _
  have hlo : (0 : ℤ) ≤ round (v * (bucketsCount : ℚ)) := by
    rw [round_eq]
    exact Int.le_floor.mpr (by push_cast; linarith)
  have hhi : round (v * (bucketsCount : ℚ)) ≤ (bucketsCount : ℤ) := by
    rw [round_eq]
    have hlt : ⌊v * (bucketsCount : ℚ) + 1 / 2⌋ < (bucketsCount : ℤ) + 1 :=
      Int.floor_lt.mpr (by push_cast; linarith)
    omega
  rw [bucketNumberZ]
  by_cases he : round (v * (bucketsCount : ℚ)) = (bucketsCount : ℤ)
  · simp only [he, if_pos]
    constructor <;> [omega; omega]
  · simp only [he, if_neg, ite_false]
    have : round (v * (bucketsCount : ℚ)) < (bucketsCount : ℤ) :=
      lt_of_le_of_ne hhi he
    omega

/-- C9: for every pixel value `v` in `[0,1]` and bucket count at least 1, the
computed bucket number (`round(v * bucketsCount)`, clamped to
`bucketsCount - 1` at the top edge) lies in `[0, bucketsCount)`: the
bucket-occupancy array access is in bounds and never negative. -/
theorem C9_bucketNumber_in_range (v : ℚ) (bucketsCount : ℕ) (h0 : 0 ≤ v)
    (h1 : v ≤ 1) (hbc : 1 ≤ bucketsCount) :
    0 ≤ bucketNumberZ v bucketsCount ∧
      bucketNumberZ v bucketsCount < (bucketsCount : ℤ) :=
  bucketNumberZ_range v bucketsCount h0 h1 hbc

/-- C9 witness: the boundary value `v = 1` with two buckets, where the clamp
is exercised, and an interior value. -/
theorem C9_bucketNumber_in_range_witness :
    (0 ≤ bucketNumberZ 1 2 ∧ bucketNumberZ 1 2 < (2 : ℤ)) ∧
    (0 ≤ bucketNumberZ (1 / 2) 2 ∧ bucketNumberZ (1 / 2) 2 < (2 : ℤ)) :=
  ⟨C9_bucketNumber_in_range 1 2 (by norm_num) (by norm_num) (by norm_num),
   C9_bucketNumber_in_range (1 / 2) 2 (by norm_num) (by norm_num) (by norm_num)⟩

lemma listMax_cons (a : ℕ) (l : List ℕ) : listMax (a :: l) = max a (listMax l) := rfl

lemma listMax_replicate_zero (n : ℕ) : listMax (List.replicate n 0) = 0 := by
  induction n with
  | zero => rfl
  | succ m ih => simpa [List.replicate, listMax_cons] using ih

lemma listSum_set_add_one : ∀ (l : List ℕ) (i : ℕ), i < l.length →
    (l.set i (l.getD i 0 + 1)).sum = l.sum + 1
  | [], i, h => by simp at h
  | a :: t, 0, _ => by
      simp [List.set_cons_zero, List.getD_cons_zero]
      omega
  | a :: t, i + 1, h => by
      have ih := listSum_set_add_one t i (by simpa using h)
      simp only [List.set_cons_succ, List.getD_cons_succ, List.sum_cons, ih]
      omega

lemma listGetD_set_self : ∀ (l : List ℕ) (i x : ℕ), i < l.length →
    (l.set i x).getD i 0 = x
  | [], i, x, h => by simp at h
  | a :: t, 0, x, _ => by simp [List.set_cons_zero, List.getD_cons_zero]
  | a :: t, i + 1, x, h => by
      have ih := listGetD_set_self t i x (by simpa using h)
      simpa [List.set_cons_succ, List.getD_cons_succ] using ih

lemma listGetD_set_of_ne : ∀ (l : List ℕ) (i j x : ℕ), j ≠ i →
    (l.set i x).getD j 0 = l.getD j 0
  | [], _, _, _, _ => rfl
  | a :: t, 0, 0, x, h => absurd rfl h
  | a :: t, 0, j + 1, x, _ => by
      simp [List.set_cons_zero, List.getD_cons_succ]
  | a :: t, i + 1, 0, x, _ => by
      simp [List.set_cons_succ, List.getD_cons_zero]
  | a :: t, i + 1, j + 1, x, h => by
      have ih := listGetD_set_of_ne t i j x (by omega)
      simpa [List.set_cons_succ, List.getD_cons_succ] using ih

lemma listMax_set_of_le : ∀ (l : List ℕ) (i x : ℕ), i < l.length →
    l.getD i 0 ≤ x → listMax (l.set i x) = max (listMax l) x
  | [], i, x, h, _ => by simp at h
  | a :: t, 0, x, _, hle => by
      simp only [List.set_cons_zero, listMax_cons, List.getD_cons_zero] at *
      omega
  | a :: t, i + 1, x, h, hle => by
      have ih := listMax_set_of_le t i x (by simpa using h)
        (by simpa [List.getD_cons_succ] using hle)
      simp only [List.set_cons_succ, listMax_cons, ih]
      omega

lemma engineInv_init (bucketsCount : ℕ) :
    EngineInv bucketsCount (engineInit bucketsCount) := by
  refine ⟨?_, ?_, ?_, ?_, ?_, ?_⟩ <;>
    simp [engineInit, listMax_replicate_zero, List.sum_replicate]

lemma engineInv_processOne (bucketsCount : ℕ) (hbc : 1 ≤ bucketsCount)
    (st : EngineState) (input : PixelRGB × ℚ × ℕ)
    (hr : input.1.r ≤ 255) (hg : input.1.g ≤ 255) (hb : input.1.b ≤ 255)
    (h : EngineInv bucketsCount st) :
    EngineInv bucketsCount (processOne bucketsCount st input) := by
  have hv0 := getValue_nonneg input.1.r input.1.g input.1.b
  have hv1 := getValue_le_one input.1.r input.1.g input.1.b hr hg hb
  have hrange := bucketNumberZ_range (getValue input.1.r input.1.g input.1.b)
    bucketsCount hv0 hv1 hbc
  set v := getValue input.1.r input.1.g input.1.b with hvdef
  set bn := (bucketNumberZ v bucketsCount).toNat with hbndef
  have hbn : bn < bucketsCount := by omega
  have hbnlen : bn < st.buckets.length := by rw [h.blen]; exact hbn
  set occ := st.buckets.getD bn 0 with hoccdef
  have hmax : (if st.maxYValue < occ + 1 then occ + 1 else st.maxYValue)
      = max st.maxYValue (occ + 1) := by
    split <;> omega
  have hproc : processOne bucketsCount st input =
      { buckets := st.buckets.set bn (occ + 1)
        particles := st.particles ++ [⟨v, occ, input.2.1, input.2.2⟩]
        maxYValue := max st.maxYValue (occ + 1)
        minFrameSpan := some (match st.minFrameSpan with
          | none => input.2.1
          | some m => if input.2.1 < m then input.2.1 else m)
        maxFrameSpan := some (match st.maxFrameSpan with
          | none => input.2.1
          | some m => if input.2.1 > m then input.2.1 else m) } := by
    simp only [processOne, ← hvdef, ← hbndef, ← hoccdef, Nat.add_sub_cancel,
      gt_iff_lt, hmax]
  rw [hproc]
  refine ⟨?_, ?_, ?_, ?_, ?_, ?_⟩
  · dsimp only
    rw [List.length_set]
    exact h.blen
  · dsimp only
    have hsum := listSum_set_add_one st.buckets bn hbnlen
    rw [← hoccdef] at hsum
    rw [hsum, h.bsum, List.length_append]
    simp
  · intro p hp
    dsimp only at hp ⊢
    rcases List.mem_append.mp hp with hold | hnew
    · have hs := h.stack p hold
      by_cases he : (bucketNumberZ p.value bucketsCount).toNat = bn
      · rw [he, listGetD_set_self st.buckets bn (occ + 1) hbnlen]
        rw [he, ← hoccdef] at hs
        omega
      · rw [listGetD_set_of_ne st.buckets bn _ (occ + 1) he]
        exact hs
    · have hpe : p = (⟨v, occ, input.2.1, input.2.2⟩ : Particle) := by
        simpa using hnew
      have hv' : p.value = v := by rw [hpe]
      have hh' : p.stackHeight = occ := by rw [hpe]
      rw [hv', hh', ← hbndef, listGetD_set_self st.buckets bn (occ + 1) hbnlen]
      omega
  · dsimp only
    have hset := listMax_set_of_le st.buckets bn (occ + 1) hbnlen
      (by rw [← hoccdef]; omega)
    rw [hset, ← h.maxy]
  · intro p hp
    dsimp only at hp ⊢
    rcases List.mem_append.mp hp with hold | hnew
    · obtain ⟨m, hm, hle⟩ := h.jlo p hold
      simp only [hm]
      refine ⟨_, rfl, ?_⟩
      split_ifs with hj
      · linarith
      · exact hle
    · have hpe : p = (⟨v, occ, input.2.1, input.2.2⟩ : Particle) := by
        simpa using hnew
      have hpj : p.jitter = input.2.1 := by rw [hpe]
      cases hmin : st.minFrameSpan with
      | none =>
        simp only [hmin]
        exact ⟨_, rfl, by rw [hpj]⟩
      | some m =>
        simp only [hmin]
        refine ⟨_, rfl, ?_⟩
        rw [hpj]
        split_ifs with hj
        · exact le_refl _
        · exact not_lt.mp hj
  · intro p hp
    dsimp only at hp ⊢
    rcases List.mem_append.mp hp with hold | hnew
    · obtain ⟨m, hm, hle⟩ := h.jhi p hold
      simp only [hm, gt_iff_lt]
      refine ⟨_, rfl, ?_⟩
      split_ifs with hj
      · linarith
      · exact hle
    · have hpe : p = (⟨v, occ, input.2.1, input.2.2⟩ : Particle) := by
        simpa using hnew
      have hpj : p.jitter = input.2.1 := by rw [hpe]
      cases hmax2 : st.maxFrameSpan with
      | none =>
        simp only [hmax2]
        exact ⟨_, rfl, by rw [hpj]⟩
      | some m =>
        simp only [hmax2, gt_iff_lt]
        refine ⟨_, rfl, ?_⟩
        rw [hpj]
        split_ifs with hj
        · exact le_refl _
        · exact not_lt.mp hj

lemma engineInv_foldl (bucketsCount : ℕ) (hbc : 1 ≤ bucketsCount) :
    ∀ (input : List (PixelRGB × ℚ × ℕ)) (st : EngineState),
      (∀ t ∈ input, t.1.r ≤ 255 ∧ t.1.g ≤ 255 ∧ t.1.b ≤ 255) →
      EngineInv bucketsCount st →
      EngineInv bucketsCount (input.foldl (processOne bucketsCount) st)
  | [], _, _, h => h
  | t :: rest, st, hin, h => by
      have ht := hin t (List.mem_cons_self t rest)
      have h1 := engineInv_processOne bucketsCount hbc st t ht.1 ht.2.1 ht.2.2 h
      exact engineInv_foldl bucketsCount hbc rest _
        (fun u hu => hin u (List.mem_cons_of_mem t hu)) h1

lemma processOne_particles_length (bucketsCount : ℕ) (st : EngineState)
    (t : PixelRGB × ℚ × ℕ) :
    (processOne bucketsCount st t).particles.length = st.particles.length + 1 := by
  simp [processOne]

lemma foldl_particles_length (bucketsCount : ℕ) :
    ∀ (input : List (PixelRGB × ℚ × ℕ)) (st : EngineState),
      (input.foldl (processOne bucketsCount) st).particles.length
        = st.particles.length + input.length
  | [], st => by simp
  | t :: rest, st => by
      rw [List.foldl_cons, foldl_particles_length bucketsCount rest _,
        processOne_particles_length]
      simp
      omega

lemma attachMeta_length (jit : ℕ → ℚ) (n : ℕ) :
    ∀ (k : ℕ) (l : List PixelRGB), (attachMeta jit n k l).length = l.length
  | _, [] => rfl
  | k, px :: rest => by
      simp [attachMeta, attachMeta_length jit n (k + 1) rest]

lemma attachMeta_mem (jit : ℕ → ℚ) (n : ℕ) :
    ∀ (k : ℕ) (l : List PixelRGB) (t : PixelRGB × ℚ × ℕ),
      t ∈ attachMeta jit n k l → t.1 ∈ l
  | _, [], t, h => by simp [attachMeta] at h
  | k, px :: rest, t, h => by
      simp only [attachMeta, List.mem_cons] at h
      rcases h with h | h
      · rw [h]
        exact List.mem_cons_self _ _
      · exact List.mem_cons_of_mem _ (attachMeta_mem jit n (k + 1) rest t h)

/-- C4: after the layout engine completes on any image of `n = width*height`
pixels, the sum of all buckets' final occupancy equals the pixel count; every
particle's `stackHeight` is strictly below the final occupancy of its bucket;
every particle's jitter lies between the reported `minFrameSpan` and
`maxFrameSpan` (the spec's `minJitter`/`maxJitter`); and `maxYValue` (the
spec's `maxStackHeight`) equals the maximum occupancy over all buckets. -/
theorem C4_layout_invariants (pixels : List PixelRGB) (jit : ℕ → ℚ)
    (hpx : ∀ p ∈ pixels, p.r ≤ 255 ∧ p.g ≤ 255 ∧ p.b ≤ 255) :
    (loadParticlesModel pixels jit).buckets.sum = pixels.length ∧
    (∀ p ∈ (loadParticlesModel pixels jit).particles,
      p.stackHeight < (loadParticlesModel pixels jit).buckets.getD
        (bucketNumberZ p.value pixels.length).toNat 0) ∧
    (∀ p ∈ (loadParticlesModel pixels jit).particles,
      ∃ mn mx, (loadParticlesModel pixels jit).minFrameSpan = some mn ∧
        (loadParticlesModel pixels jit).maxFrameSpan = some mx ∧
        mn ≤ p.jitter ∧ p.jitter ≤ mx) ∧
    (loadParticlesModel pixels jit).maxYValue
      = listMax (loadParticlesModel pixels jit).buckets := by
  rcases Nat.eq_zero_or_pos pixels.length with hn | hn
  · have hnil : pixels = [] := List.length_eq_zero.mp hn
    subst hnil
    refine ⟨?_, ?_, ?_, ?_⟩ <;>
      simp [loadParticlesModel, loadParticlesInput, attachMeta, runEngine,
        engineInit, listMax]
  · have hin : ∀ t ∈ loadParticlesInput pixels jit,
        t.1.r ≤ 255 ∧ t.1.g ≤ 255 ∧ t.1.b ≤ 255 := by
      intro t ht
      have hmem : t.1 ∈ pixels.reverse :=
        attachMeta_mem jit pixels.length 0 pixels.reverse t ht
      exact hpx t.1 (List.mem_reverse.mp hmem)
    have hinv : EngineInv pixels.length (loadParticlesModel pixels jit) :=
      engineInv_foldl pixels.length hn (loadParticlesInput pixels jit)
        (engineInit pixels.length) hin (engineInv_init pixels.length)
    have hplen : (loadParticlesModel pixels jit).particles.length = pixels.length := by
      have hfold := foldl_particles_length pixels.length
        (loadParticlesInput pixels jit) (engineInit pixels.length)
      have hilen : (loadParticlesInput pixels jit).length = pixels.length := by
        rw [loadParticlesInput, attachMeta_length, List.length_reverse]
      rw [hilen] at hfold
      simpa [engineInit] using hfold
    refine ⟨?_, hinv.stack, ?_, hinv.maxy⟩
    · rw [hinv.bsum, hplen]
    · intro p hp
      obtain ⟨mn, hmn, hmnle⟩ := hinv.jlo p hp
      obtain ⟨mx, hmx, hmxle⟩ := hinv.jhi p hp
      exact ⟨mn, mx, hmn, hmx, hmnle, hmxle⟩

/-- C4 witness: a concrete 2-pixel image (one black, one white pixel) with the
jitter stream `k`. -/
theorem C4_layout_invariants_witness :
    (loadParticlesModel [⟨0, 0, 0⟩, ⟨255, 255, 255⟩] (fun k => (k : ℚ))).buckets.sum = 2 ∧
    (∀ p ∈ (loadParticlesModel [⟨0, 0, 0⟩, ⟨255, 255, 255⟩] (fun k => (k : ℚ))).particles,
      p.stackHeight < (loadParticlesModel [⟨0, 0, 0⟩, ⟨255, 255, 255⟩]
        (fun k => (k : ℚ))).buckets.getD (bucketNumberZ p.value 2).toNat 0) ∧
    (∀ p ∈ (loadParticlesModel [⟨0, 0, 0⟩, ⟨255, 255, 255⟩] (fun k => (k : ℚ))).particles,
      ∃ mn mx, (loadParticlesModel [⟨0, 0, 0⟩, ⟨255, 255, 255⟩]
          (fun k => (k : ℚ))).minFrameSpan = some mn ∧
        (loadParticlesModel [⟨0, 0, 0⟩, ⟨255, 255, 255⟩]
          (fun k => (k : ℚ))).maxFrameSpan = some mx ∧
        mn ≤ p.jitter ∧ p.jitter ≤ mx) ∧
    (loadParticlesModel [⟨0, 0, 0⟩, ⟨255, 255, 255⟩] (fun k => (k : ℚ))).maxYValue
      = listMax (loadParticlesModel [⟨0, 0, 0⟩, ⟨255, 255, 255⟩] (fun k => (k : ℚ))).buckets :=
  C4_layout_invariants [⟨0, 0, 0⟩, ⟨255, 255, 255⟩] (fun k => (k : ℚ)) (by decide)

lemma loaderInv_init (total : ℕ) : LoaderInv total loaderInit := by
  refine ⟨?_, ?_, ?_⟩ <;> simp [loaderInit]

lemma loaderInv_step (total : ℕ) (s : LoaderState) (h : LoaderInv total s)
    (e : LoaderEv) : LoaderInv total (loaderStep total s e) := by
  obtain ⟨h1, h2, h3⟩ := h
  cases e with
  | cancel => exact ⟨h1, h2, h3⟩
  | fire k =>
    by_cases hq : s.queued = true
    · have hnr : s.resolved = false := by
        cases hres : s.resolved
        · rfl
        · rw [h2 hres] at hq
          exact absurd hq (by decide)
      simp only [loaderStep, hq, if_true]
      by_cases hdone : s.idx + min (k + 1) (total - s.idx) = total ∧
          total - s.idx ≤ k
      · rw [if_pos hdone]
        exact ⟨fun _ => hdone.1, fun _ => rfl, by dsimp only; omega⟩
      · rw [if_neg hdone]
        refine ⟨?_, ?_, by dsimp only; omega⟩
        · intro hr
          simp only at hr
          rw [hnr] at hr
          exact absurd hr (by decide)
        · intro hr
          simp only at hr
          rw [hnr] at hr
          exact absurd hr (by decide)
    · simp only [loaderStep]
      rw [if_neg hq]
      exact ⟨h1, h2, h3⟩

lemma loaderInv_foldl (total : ℕ) :
    ∀ (evs : List LoaderEv) (s : LoaderState), LoaderInv total s →
      LoaderInv total (evs.foldl (loaderStep total) s)
  | [], _, h => h
  | e :: rest, s, h =>
      loaderInv_foldl total rest _ (loaderInv_step total s h e)

lemma loaderInv_run (total : ℕ) (evs : List LoaderEv) :
    LoaderInv total (loaderRun total evs) :=
  loaderInv_foldl total evs loaderInit (loaderInv_init total)

lemma loaderStep_cancelled_fire (total : ℕ) (s : LoaderState)
    (hc : s.cancelled = true) (k : ℕ) :
    (loaderStep total s (LoaderEv.fire k)).queued = false := by
  by_cases hq : s.queued = true
  · simp only [loaderStep, hq, if_true]
    split
    · rfl
    · simp [hc]
  · simp only [loaderStep]
    rw [if_neg hq]
    simpa using hq

lemma loaderStep_stuck (total : ℕ) (s : LoaderState) (hc : s.cancelled = true)
    (hq : s.queued = false) (e : LoaderEv) : loaderStep total s e = s := by
  cases e with
  | cancel =>
    show { s with cancelled := true } = s
    rw [← hc]
  | fire k =>
    simp only [loaderStep]
    rw [if_neg (by simp [hq])]

lemma loaderFoldl_stuck (total : ℕ) (s : LoaderState) (hc : s.cancelled = true)
    (hq : s.queued = false) : ∀ evs : List LoaderEv,
      evs.foldl (loaderStep total) s = s
  | [] => rfl
  | e :: rest => by
      rw [List.foldl_cons, loaderStep_stuck total s hc hq e]
      exact loaderFoldl_stuck total s hc hq rest

/-- C8 counterexample: on a 1-pixel image, set the flag between the initial
`scheduleWork` and the firing of its queued timeout (exactly what `dispose()`
during a load does).  The already-queued batch still runs after the flag is
set — it consumes the pixel and resolves the promise.  So a further
pixel-processing batch does run after the cancellation, and the result promise
does resolve after cancellation, refuting the claim. -/
theorem C8_counterexample :
    (loaderRun 1 [LoaderEv.cancel]).cancelled = true ∧
    (loaderRun 1 [LoaderEv.cancel]).resolved = false ∧
    (loaderRun 1 [LoaderEv.cancel]).idx = 0 ∧
    (loaderRun 1 [LoaderEv.cancel, LoaderEv.fire 1]).idx = 1 ∧
    (loaderRun 1 [LoaderEv.cancel, LoaderEv.fire 1]).resolved = true := by
  decide

/-- C8 (amended): once the cancellation flag is set, the batch boundary check
in `scheduleWork` prevents any *new* batch from being queued — after any
subsequent batch fires nothing is queued, and once nothing is queued the
loader never changes again (in particular it never resolves).  However the
single batch already queued when the flag was set still runs, and may resolve
the promise; in every case the promise resolves only with all `total` pixels
processed, so no partial buffer is ever delivered. -/
theorem C8_cancellation (total : ℕ) (s : LoaderState) (evs : List LoaderEv) :
    (s.cancelled = true →
      ∀ k, (loaderStep total s (LoaderEv.fire k)).queued = false) ∧
    (s.cancelled = true → s.queued = false →
      evs.foldl (loaderStep total) s = s) ∧
    ((loaderRun total evs).resolved = true → (loaderRun total evs).idx = total) :=
  ⟨fun hc k => loaderStep_cancelled_fire total s hc k,
   fun hc hq => loaderFoldl_stuck total s hc hq evs,
   fun hr => (loaderInv_run total evs).1 hr⟩

/-- C8 witness: the amended theorem applied at concrete loader states. -/
theorem C8_cancellation_witness :
    (loaderStep 1 ⟨0, true, true, false⟩ (LoaderEv.fire 0)).queued = false ∧
    List.foldl (loaderStep 1) ⟨0, false, true, false⟩ [LoaderEv.fire 0]
      = ⟨0, false, true, false⟩ ∧
    (loaderRun 1 [LoaderEv.fire 5]).idx = 1 :=
  ⟨(C8_cancellation 1 ⟨0, true, true, false⟩ [LoaderEv.fire 0]).1 rfl 0,
   (C8_cancellation 1 ⟨0, false, true, false⟩ [LoaderEv.fire 0]).2.1 rfl rfl,
   (C8_cancellation 1 ⟨0, true, false, false⟩ [LoaderEv.fire 5]).2.2 (by decide)⟩

/-- C6 counterexample: on a zero-sized pixel source (`width*height = 0`) the
engine does not fail at all — there is no `InvalidImageError` anywhere in
`loadParticles`/`processPixels`; the first batch finds nothing to process and
resolves the promise successfully with an empty particle buffer
(`maxYValue = 0`), so nothing is reported through the `error` progress step by
the layout engine. -/
theorem C6_counterexample :
    (loaderRun 0 [LoaderEv.fire 0]).resolved = true ∧
    (loadParticlesModel [] (fun _ => 0)).particles = [] ∧
    (loadParticlesModel [] (fun _ => 0)).maxYValue = 0 := by
  refine ⟨by decide, rfl, rfl⟩

/-- C6 (amended): on a zero-sized pixel source the layout engine resolves
successfully with the empty particle buffer instead of failing with an
`InvalidImageError` (no such error exists in the engine); and the engine never
partially resolves — whenever its promise resolves, all `total` pixels have
been processed, and otherwise it has been cancelled or is still pending. -/
theorem C6_zero_size_resolves (total : ℕ) (evs : List LoaderEv) :
    ((loaderRun total evs).resolved = true → (loaderRun total evs).idx = total) ∧
    (loaderRun 0 [LoaderEv.fire 0]).resolved = true ∧
    (loadParticlesModel [] (fun _ => 0)).particles = [] :=
  ⟨fun hr => (loaderInv_run total evs).1 hr, by decide, rfl⟩

/-- C6 witness: the amended theorem at a concrete two-batch run. -/
theorem C6_zero_size_resolves_witness :
    (loaderRun 2 [LoaderEv.fire 0, LoaderEv.fire 3]).idx = 2 ∧
    (loaderRun 0 [LoaderEv.fire 0]).resolved = true :=
  ⟨(C6_zero_size_resolves 2 [LoaderEv.fire 0, LoaderEv.fire 3]).1 (by decide),
   (C6_zero_size_resolves 0 []).2.1⟩

/-- C10: every setter input that does not parse to a valid value
(`setAnimationDuration` with a non-numeric input, `setBucketCount` with a NaN
or less-than-1 integer, `setMaxPixels` with a non-numeric input) is a no-op:
the state fields, the persisted query-string entries, and the side-effect
counters (frames-count pushes, restarts, re-layouts) are all left exactly as
they were. -/
theorem C10_invalid_setter_inputs_noop (s : SceneState) :
    setAnimationDuration s none = s ∧
    setMaxPixels s none = s ∧
    setBucketCount s none = s ∧
    (∀ bc : ℤ, bc < 1 → setBucketCount s (some bc) = s) := by
  refine ⟨rfl, rfl, rfl, ?_⟩
  intro bc hbc
  simp only [setBucketCount, if_pos hbc]

/-- C10 witness: a concrete session state, with the invalid bucket counts 0
and -3. -/
theorem C10_invalid_setter_inputs_noop_witness :
    setAnimationDuration ⟨2, 510, 409600, none, none, true, 0, 0, 0⟩ none
      = ⟨2, 510, 409600, none, none, true, 0, 0, 0⟩ ∧
    setBucketCount ⟨2, 510, 409600, none, none, true, 0, 0, 0⟩ (some 0)
      = ⟨2, 510, 409600, none, none, true, 0, 0, 0⟩ ∧
    setBucketCount ⟨2, 510, 409600, none, none, true, 0, 0, 0⟩ (some (-3))
      = ⟨2, 510, 409600, none, none, true, 0, 0, 0⟩ :=
  ⟨(C10_invalid_setter_inputs_noop ⟨2, 510, 409600, none, none, true, 0, 0, 0⟩).1,
   (C10_invalid_setter_inputs_noop ⟨2, 510, 409600, none, none, true, 0, 0, 0⟩).2.2.2
     0 (by decide),
   (C10_invalid_setter_inputs_noop ⟨2, 510, 409600, none, none, true, 0, 0, 0⟩).2.2.2
     (-3) (by decide)⟩
